import Mathlib

/-!
Shallow embedding of `pkg/metrics/store.go` from sofa-mosn: a deduplicating
metrics registry keyed by an identity string computed from a metric type and
a label map, with an exclusion policy, per-identity instrument containers,
enumeration and reset.

Go maps `map[string]string` are embedded as association lists
`List (String × String)` whose key column is duplicate-free (the `Nodup`
hypotheses below are exactly the representation invariant of a Go map).
Stateful operations on the process-wide store become explicit state passing
on a `Store` value.
-/

/-- Association-list lookup, embedding Go's `m[k]` map access. -/
def alookup {α : Type} (k : String) : List (String × α) → Option α
  | [] => none
  | (k1, v1) :: rest => if k1 = k then some v1 else alookup k rest

/-- Embedding of Go `strings.Join(elems, sep)`. -/
def stringsJoin (elems : List String) (sep : String) : String :=
  match elems with
  | [] => ""
  | e :: rest => rest.foldl (fun acc x => acc ++ sep ++ x) e

/-- `const maxLabelCount = 10` -/
def maxLabelCount : Nat := 10

/-- `errLabelCountExceeded = fmt.Errorf("label count exceeded, max is %d", maxLabelCount)` -/
def errLabelCountExceeded : String := "label count exceeded, max is 10"

/-- Modelled from the spec: a histogram's internal summarization strategy is a
fixed-size uniform reservoir sample (`gometrics.UniformSample`, a library type
whose code is not part of this repository): it keeps a running observation
count and at most `reservoirSize` retained values; once full, an incoming
observation replaces a uniformly random retained value or is dropped. The
random draw `rand.Int63n(count)` is made explicit as the `r` argument of
`UniformSample.update`. -/
structure UniformSample where
  reservoirSize : Nat
  count : Nat
  values : List Int
deriving DecidableEq, Repr

/-- Modelled from the spec: `gometrics.NewUniformSample(reservoirSize)`. -/
def newUniformSample (reservoirSize : Nat) : UniformSample :=
  { reservoirSize := reservoirSize, count := 0, values := [] }

/-- Modelled from the spec: `UniformSample.Update(v)` with the random draw `r`
passed in as an oracle. While the reservoir is not full the value is appended;
once full, the value overwrites slot `r` when `r < reservoirSize` and is
otherwise discarded. -/
def UniformSample.update (s : UniformSample) (v : Int) (r : Nat) : UniformSample :=
  let count := s.count + 1
  if s.values.length < s.reservoirSize then
    { s with count := count, values := s.values ++ [v] }
  else if r < s.reservoirSize then
    { s with count := count, values := s.values.set r v }
  else
    { s with count := count }

/-- Apply a sequence of observations (value paired with its random draw). -/
def UniformSample.updates (s : UniformSample) (obs : List (Int × Nat)) : UniformSample :=
  obs.foldl (fun acc o => acc.update o.1 o.2) s

/-- Modelled from the spec: the three instrument kinds handed out by a
Metric-Group (`gometrics.Counter` / `Gauge` / `Histogram`, library types whose
code is not part of this repository), as a tagged variant. -/
inductive Instrument where
  | counter (v : Int)
  | gauge (v : Int)
  | histogram (sample : UniformSample)
deriving DecidableEq, Repr

/-- `metrics` struct: per-identity Metric-Group wrapping a go-metrics registry.
The `labelKeys`/`labelVals` memoization fields (Go `nil` slices when unset) are
embedded as `Option`s; the instrument sub-registry becomes an association
list. -/
structure Metrics where
  typ : String
  labels : List (String × String)
  labelKeys : Option (List String) := none
  labelVals : Option (List String) := none
  registry : List (String × Instrument) := []
deriving DecidableEq, Repr

/-- `types.Metrics` as returned by `NewMetrics`: either a tracked Metric-Group
(`*metrics`) or the no-op variant produced by the exclusion path. -/
inductive TypesMetrics where
  | real (g : Metrics)
  | nil (typ : String) (labels : List (String × String))
deriving DecidableEq, Repr

/-- `store` struct: the process-wide registry state (`defaultStore`). -/
structure Store where
  rejectAll : Bool := false
  exclusionLabels : List String := []
  metrics : List (String × Metrics) := []
deriving DecidableEq, Repr

/-- `init()`: `defaultStore` starts with an empty table and a zero policy. -/
def initStore : Store := {}

/-- `SetStatsMatcher(all, exclusions)`: sets `rejectAll` only when `all` is
true (never clears it) and replaces the exclusion-label list. -/
def SetStatsMatcher (all : Bool) (exclusions : List String) (s : Store) : Store :=
  { s with
    rejectAll := if all then true else s.rejectAll
    exclusionLabels := exclusions }

/-- `isExclusion(labels)`: true when `rejectAll` is set or some exclusion
label occurs as a key of `labels`. -/
def isExclusion (s : Store) (labels : List (String × String)) : Bool :=
  s.rejectAll || s.exclusionLabels.any (fun label => (alookup label labels).isSome)

/-- `sortedLabels(labels)`: keys sorted lexicographically (`sort.Strings`),
values listed in the order of the sorted keys. -/
def sortedLabels (labels : List (String × String)) :
    List String × List String :=
  let keys := List.insertionSort (· ≤ ·) (labels.map Prod.fst)
  (keys, keys.map (fun k => (alookup k labels).getD ""))

/-- `fullName(typ, labels)`: the identity string
`typ + "." + strings.Join(pairs, ".")` where `pairs[i] = keys[i]+"."+values[i]`
over the sorted labels. -/
def fullName (typ : String) (labels : List (String × String)) : String :=
  let kv := sortedLabels labels
  let pair := (kv.1.zip kv.2).map (fun p => p.1 ++ "." ++ p.2)
  typ ++ "." ++ stringsJoin pair "."

/-- Modelled from the spec: `NewNilMetrics(typ, labels)` (defined in a file of
this repository that is not under `src/`) returns the no-op Metric-Group
variant — its instruments discard all operations — and never fails. -/
def NewNilMetrics (typ : String) (labels : List (String × String)) :
    Except String TypesMetrics :=
  .ok (.nil typ labels)

/-- `NewMetrics(typ, labels)`: reject over-long label sets, route excluded
label sets to the no-op variant without touching the table, otherwise return
the Metric-Group already stored under the identity or insert a fresh one. -/
def NewMetrics (typ : String) (labels : List (String × String)) (s : Store) :
    Except String TypesMetrics × Store :=
  if labels.length > maxLabelCount then
    (.error errLabelCountExceeded, s)
  else if isExclusion s labels then
    (NewNilMetrics typ labels, s)
  else
    let name := fullName typ labels
    match alookup name s.metrics with
    | some m => (.ok (.real m), s)
    | none =>
      let stats : Metrics := { typ := typ, labels := labels }
      (.ok (.real stats), { s with metrics := s.metrics ++ [(name, stats)] })

/-- `(s *metrics) SortedLabels()`: memoized sorted key/value slices; the
cache write is made explicit by returning the updated group. -/
def Metrics.SortedLabels (s : Metrics) :
    (List String × List String) × Metrics :=
  match s.labelKeys, s.labelVals with
  | some ks, some vs => ((ks, vs), s)
  | _, _ =>
    let kv := sortedLabels s.labels
    (kv, { s with labelKeys := some kv.1, labelVals := some kv.2 })

/-- Modelled from the spec: `gometrics.Registry.GetOrRegister(name, ctor)`
(library code not part of this repository): return the instrument already
registered under `name`, else register and return `ctor()`. -/
def getOrRegister (reg : List (String × Instrument)) (name : String)
    (ctor : Unit → Instrument) : Instrument × List (String × Instrument) :=
  match alookup name reg with
  | some i => (i, reg)
  | none =>
    let i := ctor ()
    (i, reg ++ [(name, i)])

/-- `(s *metrics) Counter(key)`: lookup-or-create a counter in the group's
sub-registry. -/
def Metrics.Counter (s : Metrics) (key : String) : Instrument × Metrics :=
  let r := getOrRegister s.registry key (fun _ => .counter 0)
  (r.1, { s with registry := r.2 })

/-- `(s *metrics) Gauge(key)`. -/
def Metrics.Gauge (s : Metrics) (key : String) : Instrument × Metrics :=
  let r := getOrRegister s.registry key (fun _ => .gauge 0)
  (r.1, { s with registry := r.2 })

/-- `(s *metrics) Histogram(key)`: a fresh histogram is backed by
`gometrics.NewHistogram(gometrics.NewUniformSample(100))`. -/
def Metrics.Histogram (s : Metrics) (key : String) : Instrument × Metrics :=
  let r := getOrRegister s.registry key (fun _ => .histogram (newUniformSample 100))
  (r.1, { s with registry := r.2 })

/-- `(s *metrics) UnregisterAll()`: empties the group's sub-registry. -/
def Metrics.UnregisterAll (s : Metrics) : Metrics :=
  { s with registry := [] }

/-- `GetAll()`: snapshot of every tracked Metric-Group. -/
def GetAll (s : Store) : List TypesMetrics :=
  s.metrics.map (fun p => .real p.2)

/-- `ResetAll()`: calls `UnregisterAll` on every tracked group, then empties
the table and zeroes the exclusion policy. The groups after teardown are
returned alongside the new store, standing for the shared group objects that
callers may still hold. -/
def ResetAll (s : Store) : Store × List Metrics :=
  let torn := s.metrics.map (fun p => p.2.UnregisterAll)
  ({ rejectAll := false, exclusionLabels := [], metrics := [] }, torn)

/-- `mapEqual(x, y)`: length check plus entry-wise lookup check. -/
def mapEqual (x y : List (String × String)) : Bool :=
  if x.length ≠ y.length then false
  else x.all (fun kv =>
    match alookup kv.1 y with
    | some yv => yv == kv.2
    | none => false)

/-- One registry-facing call, for reasoning about reachable store states:
`SetStatsMatcher`, `NewMetrics` (result discarded) or enumeration. -/
inductive Op where
  | setMatcher (all : Bool) (exclusions : List String)
  | newMetrics (typ : String) (labels : List (String × String))
  | getAll

/-- Apply one call to the store state. -/
def applyOp (s : Store) (op : Op) : Store :=
  match op with
  | .setMatcher all exclusions => SetStatsMatcher all exclusions s
  | .newMetrics typ labels => (NewMetrics typ labels s).2
  | .getAll => s

/-- Run a call sequence from a store state. -/
def runOps (s : Store) (ops : List Op) : Store :=
  ops.foldl applyOp s

/-- The identity format as the spec words it: `type` concatenated with, for
each label in sorted-key order, `.<key>.<value>` — to be compared against
`fullName` as translated from the source. -/
def specIdentity (typ : String) (labels : List (String × String)) : String :=
  let kv := sortedLabels labels
  (kv.1.zip kv.2).foldl (fun acc p => acc ++ "." ++ p.1 ++ "." ++ p.2) typ

/-! ### Association-list lookup lemmas -/

theorem alookup_append {α : Type} (k : String) (l1 l2 : List (String × α)) :
    alookup k (l1 ++ l2) =
      match alookup k l1 with
      | some v => some v
      | none => alookup k l2 := by
  induction l1 with
  | nil => simp [alookup]
  | cons p rest ih =>
    obtain ⟨k1, v1⟩ := p
    by_cases h : k1 = k <;> simp [alookup, h, ih]

theorem mem_of_alookup_eq_some {α : Type} {k : String} {v : α} :
    ∀ {l : List (String × α)}, alookup k l = some v → (k, v) ∈ l := by
  intro l
  induction l with
  | nil => intro h; simp [alookup] at h
  | cons p rest ih =>
    obtain ⟨k1, v1⟩ := p
    intro h
    by_cases hk : k1 = k
    · simp [alookup, hk] at h
      simp [hk, h]
    · simp [alookup, hk] at h
      exact List.mem_cons_of_mem _ (ih h)

theorem alookup_isSome_iff {α : Type} (k : String) (l : List (String × α)) :
    (alookup k l).isSome = true ↔ k ∈ l.map Prod.fst := by
  induction l with
  | nil => simp [alookup]
  | cons p rest ih =>
    obtain ⟨k1, v1⟩ := p
    by_cases h : k1 = k
    · subst h; simp [alookup]
    · have hne : k ≠ k1 := fun hk => h hk.symm
      simp [alookup, h, ih, hne]

theorem alookup_eq_none_iff {α : Type} (k : String) (l : List (String × α)) :
    alookup k l = none ↔ k ∉ l.map Prod.fst := by
  rw [← alookup_isSome_iff, Option.isSome_iff_ne_none]
  simp

theorem alookup_eq_some_of_mem {α : Type} {k : String} {v : α} :
    ∀ {l : List (String × α)}, (l.map Prod.fst).Nodup → (k, v) ∈ l →
      alookup k l = some v := by
  intro l
  induction l with
  | nil => intro _ h; simp at h
  | cons p rest ih =>
    obtain ⟨k1, v1⟩ := p
    intro hn hm
    simp only [List.map_cons, List.nodup_cons] at hn
    rcases List.mem_cons.mp hm with heq | hmem
    · injection heq with h1 h2
      subst h1; subst h2
      simp [alookup]
    · have hne : k1 ≠ k := by
        intro hk
        exact hn.1 (hk ▸ (List.mem_map.mpr ⟨(k, v), hmem, rfl⟩))
      simp [alookup, hne, ih hn.2 hmem]

/-! ### `mapEqual` lemmas -/

theorem mapEqual_iff {x y : List (String × String)} :
    mapEqual x y = true ↔
      x.length = y.length ∧ ∀ p ∈ x, alookup p.1 y = some p.2 := by
  unfold mapEqual
  split
  · rename_i hlen
    constructor
    · intro h; simp at h
    · intro h; exact absurd h.1 hlen
  · rename_i hlen
    push_neg at hlen
    rw [List.all_eq_true]
    constructor
    · intro h
      refine ⟨hlen, fun p hp => ?_⟩
      have := h p hp
      cases hy : alookup p.1 y with
      | none => rw [hy] at this; simp at this
      | some yv => rw [hy] at this; simp at this; exact congrArg some this
    · intro ⟨_, h⟩ p hp
      rw [h p hp]
      simp

theorem mapEqual_lookup {x y : List (String × String)}
    (hx : (x.map Prod.fst).Nodup) (hy : (y.map Prod.fst).Nodup)
    (h : mapEqual x y = true) : ∀ k, alookup k y = alookup k x := by
  obtain ⟨hlen, hall⟩ := mapEqual_iff.mp h
  have hsub : ∀ k, k ∈ x.map Prod.fst → k ∈ y.map Prod.fst := by
    intro k hk
    obtain ⟨p, hp, hpk⟩ := List.mem_map.mp hk
    rw [← alookup_isSome_iff]
    have hl := hall p hp
    rw [hpk] at hl
    rw [hl]
    rfl
  have hfin : (x.map Prod.fst).toFinset = (y.map Prod.fst).toFinset := by
    apply Finset.eq_of_subset_of_card_le
    · intro k hk
      rw [List.mem_toFinset] at *
      exact hsub k hk
    · rw [List.toFinset_card_of_nodup hx, List.toFinset_card_of_nodup hy]
      simp [hlen]
  intro k
  cases hxk : alookup k x with
  | some v => exact hall (k, v) (mem_of_alookup_eq_some hxk)
  | none =>
    rw [alookup_eq_none_iff] at hxk ⊢
    intro hky
    exact hxk (by rw [← List.mem_toFinset, hfin, List.mem_toFinset]; exact hky)

theorem mapEqual_keys_perm {x y : List (String × String)}
    (hx : (x.map Prod.fst).Nodup) (hy : (y.map Prod.fst).Nodup)
    (hlk : ∀ k, alookup k y = alookup k x) :
    List.Perm (x.map Prod.fst) (y.map Prod.fst) := by
  apply List.perm_of_nodup_nodup_toFinset_eq hx hy
  apply List.toFinset.ext
  intro k
  rw [← alookup_isSome_iff, ← alookup_isSome_iff, hlk]

theorem sortedLabels_congr {x y : List (String × String)}
    (hx : (x.map Prod.fst).Nodup) (hy : (y.map Prod.fst).Nodup)
    (hlk : ∀ k, alookup k y = alookup k x) :
    sortedLabels x = sortedLabels y := by
  have hperm := mapEqual_keys_perm hx hy hlk
  have hkeys : List.insertionSort (· ≤ ·) (x.map Prod.fst)
      = List.insertionSort (· ≤ ·) (y.map Prod.fst) :=
    List.eq_of_perm_of_sorted
      ((List.perm_insertionSort _ _).trans
        (hperm.trans (List.perm_insertionSort _ _).symm))
      (List.sorted_insertionSort _ _)
      (List.sorted_insertionSort _ _)
  unfold sortedLabels
  rw [hkeys]
  have hv : ∀ k, (alookup k x).getD "" = (alookup k y).getD "" := by
    intro k; rw [hlk]
  simp only [hv]

theorem fullName_congr {x y : List (String × String)} (t : String)
    (hx : (x.map Prod.fst).Nodup) (hy : (y.map Prod.fst).Nodup)
    (hlk : ∀ k, alookup k y = alookup k x) :
    fullName t x = fullName t y := by
  unfold fullName
  rw [sortedLabels_congr hx hy hlk]

theorem isExclusion_congr (s : Store) {x y : List (String × String)}
    (hlk : ∀ k, alookup k y = alookup k x) :
    isExclusion s x = isExclusion s y := by
  unfold isExclusion
  have : (fun label => (alookup label y).isSome)
      = (fun label => (alookup label x).isSome) := by
    funext k; rw [hlk]
  rw [this]

/-! ### `NewMetrics` case analysis -/

theorem NewMetrics_limit {t : String} {L : List (String × String)} (s : Store)
    (h : L.length > maxLabelCount) :
    NewMetrics t L s = (.error errLabelCountExceeded, s) := by
  simp [NewMetrics, h]

theorem NewMetrics_excluded {t : String} {L : List (String × String)} (s : Store)
    (hlen : ¬L.length > maxLabelCount) (hex : isExclusion s L = true) :
    NewMetrics t L s = (.ok (.nil t L), s) := by
  simp [NewMetrics, hlen, hex, NewNilMetrics]

theorem NewMetrics_found {t : String} {L : List (String × String)} {s : Store}
    {m : Metrics}
    (hlen : ¬L.length > maxLabelCount) (hex : isExclusion s L = false)
    (hm : alookup (fullName t L) s.metrics = some m) :
    NewMetrics t L s = (.ok (.real m), s) := by
  simp [NewMetrics, hlen, hex, hm]

theorem NewMetrics_new {t : String} {L : List (String × String)} {s : Store}
    (hlen : ¬L.length > maxLabelCount) (hex : isExclusion s L = false)
    (hm : alookup (fullName t L) s.metrics = none) :
    NewMetrics t L s =
      (.ok (.real { typ := t, labels := L }),
       { s with metrics :=
          s.metrics ++ [(fullName t L, { typ := t, labels := L })] }) := by
  simp [NewMetrics, hlen, hex, hm]

theorem isExclusion_set_metrics (s : Store) (M : List (String × Metrics))
    (L : List (String × String)) :
    isExclusion { s with metrics := M } L = isExclusion s L := rfl

theorem NewMetrics_preserves_policy (t : String) (L : List (String × String))
    (s : Store) :
    (NewMetrics t L s).2.rejectAll = s.rejectAll ∧
    (NewMetrics t L s).2.exclusionLabels = s.exclusionLabels := by
  unfold NewMetrics
  split
  · exact ⟨rfl, rfl⟩
  · split
    · exact ⟨rfl, rfl⟩
    · dsimp only
      split <;> exact ⟨rfl, rfl⟩

/-- Shared helper: when a first `NewMetrics` call returns a tracked group `g`
in state `s1`, a second call with a label set equal as a mapping returns the
very group stored in `s1`, leaving the state untouched. -/
theorem NewMetrics_second_call {t : String} {L1 L2 : List (String × String)}
    {s s1 : Store} {g : Metrics}
    (h1 : (L1.map Prod.fst).Nodup) (h2 : (L2.map Prod.fst).Nodup)
    (heq : mapEqual L1 L2 = true)
    (hcall : NewMetrics t L1 s = (.ok (.real g), s1)) :
    NewMetrics t L2 s1 = (.ok (.real g), s1) ∧
      alookup (fullName t L1) s1.metrics = some g := by
  have hlk := mapEqual_lookup h1 h2 heq
  have hfn : fullName t L1 = fullName t L2 := fullName_congr t h1 h2 hlk
  have hlen2 : L2.length = L1.length := (mapEqual_iff.mp heq).1.symm
  by_cases hlen : L1.length > maxLabelCount
  · rw [NewMetrics_limit s hlen] at hcall
    simp at hcall
  cases hex : isExclusion s L1 with
  | true =>
    rw [NewMetrics_excluded s hlen hex] at hcall
    simp at hcall
  | false =>
    have hex2 : isExclusion s L2 = false := (isExclusion_congr s hlk).symm.trans hex
    have hlen2' : ¬L2.length > maxLabelCount := by omega
    cases hm : alookup (fullName t L1) s.metrics with
    | some m =>
      rw [NewMetrics_found hlen hex hm] at hcall
      simp only [Prod.mk.injEq, Except.ok.injEq, TypesMetrics.real.injEq] at hcall
      obtain ⟨hg, hs1⟩ := hcall
      subst hs1
      have hm' : alookup (fullName t L1) s.metrics = some g := by rw [hm, hg]
      have hm2 : alookup (fullName t L2) s.metrics = some g := hfn ▸ hm'
      exact ⟨NewMetrics_found hlen2' hex2 hm2, hm'⟩
    | none =>
      rw [NewMetrics_new hlen hex hm] at hcall
      simp only [Prod.mk.injEq, Except.ok.injEq, TypesMetrics.real.injEq] at hcall
      obtain ⟨hg, hs1⟩ := hcall
      have hstore : s1.metrics
          = s.metrics ++ [(fullName t L1, { typ := t, labels := L1 })] := by
        rw [← hs1]
      have hm1 : alookup (fullName t L1) s1.metrics = some g := by
        rw [hstore, alookup_append, hm]
        simp [alookup, hg]
      have hex1 : isExclusion s1 L2 = false := by
        rw [← hs1, isExclusion_set_metrics]
        exact hex2
      have hm2 : alookup (fullName t L2) s1.metrics = some g := hfn ▸ hm1
      exact ⟨NewMetrics_found hlen2' hex1 hm2, hm1⟩

/-! ### Identity format -/

theorem dot_foldl_append (l : List String) (pre acc : String) :
    pre ++ "." ++ (l.foldl (fun a x => a ++ "." ++ x) acc)
      = l.foldl (fun a x => a ++ "." ++ x) (pre ++ "." ++ acc) := by
  induction l generalizing acc with
  | nil => rfl
  | cons y ys ih =>
    simp only [List.foldl_cons]
    rw [ih (acc ++ "." ++ y)]
    congr 1
    simp [String.append_assoc]

theorem fullName_elim (t : String) (L : List (String × String)) :
    fullName t L = t ++ "." ++ stringsJoin
      (((sortedLabels L).1.zip (sortedLabels L).2).map
        (fun p => p.1 ++ "." ++ p.2)) "." := rfl

theorem specIdentity_elim (t : String) (L : List (String × String)) :
    specIdentity t L = ((sortedLabels L).1.zip (sortedLabels L).2).foldl
      (fun acc p => acc ++ "." ++ p.1 ++ "." ++ p.2) t := rfl

theorem join_fold_pairs (t : String) (e : String × String)
    (rest : List (String × String)) :
    t ++ "." ++ stringsJoin ((e :: rest).map (fun p => p.1 ++ "." ++ p.2)) "."
      = (e :: rest).foldl (fun acc p => acc ++ "." ++ p.1 ++ "." ++ p.2) t := by
  simp only [List.map_cons, stringsJoin, List.foldl_cons]
  rw [dot_foldl_append, List.foldl_map]
  have hgen : ∀ (l : List (String × String)) (a1 a2 : String), a1 = a2 →
      l.foldl (fun a x => a ++ "." ++ (x.1 ++ "." ++ x.2)) a1
        = l.foldl (fun a x => a ++ "." ++ x.1 ++ "." ++ x.2) a2 := by
    intro l
    induction l with
    | nil => intro a1 a2 hx; exact hx
    | cons y ys ih =>
      intro a1 a2 hx
      simp only [List.foldl_cons]
      apply ih
      rw [hx]
      simp [String.append_assoc]
  apply hgen
  simp [String.append_assoc]

theorem sortedLabels_fst_length (L : List (String × String)) :
    (sortedLabels L).1.length = L.length := by
  unfold sortedLabels
  simp [(List.perm_insertionSort (· ≤ ·) (L.map Prod.fst)).length_eq]

theorem sortedLabels_snd_length (L : List (String × String)) :
    (sortedLabels L).2.length = (sortedLabels L).1.length := by
  unfold sortedLabels
  simp

theorem fullName_eq_specIdentity_of_ne_nil (t : String)
    (L : List (String × String)) (h : L ≠ []) :
    fullName t L = specIdentity t L := by
  rw [fullName_elim, specIdentity_elim]
  cases hz : (sortedLabels L).1.zip (sortedLabels L).2 with
  | nil =>
    exfalso
    have hlen : ((sortedLabels L).1.zip (sortedLabels L).2).length = L.length := by
      rw [List.length_zip, sortedLabels_snd_length, sortedLabels_fst_length]
      simp
    rw [hz] at hlen
    simp at hlen
    exact h (List.length_eq_zero.mp hlen.symm)
  | cons e rest =>
    exact join_fold_pairs t e rest

/-! ### Claim theorems: identity and deduplication -/

/-- C1: Deduplication idempotence of GetOrCreate (`NewMetrics`): for a label
set of at most 10 entries that the current policy does not exclude, the first
call stores or finds a Metric-Group `g`; every subsequent call with a label
set equal as a key-to-value mapping returns exactly the `g` stored in the
registry table (not a fresh container), leaves the state untouched, and the
table holds exactly one entry for the identity of `(t, L)`. -/
theorem newMetrics_dedup_idempotent (t : String) (L L' : List (String × String))
    (s : Store)
    (hL : (L.map Prod.fst).Nodup) (hL' : (L'.map Prod.fst).Nodup)
    (hs : (s.metrics.map Prod.fst).Nodup)
    (hlen : L.length ≤ maxLabelCount)
    (hex : isExclusion s L = false)
    (heq : mapEqual L L' = true) :
    ∃ g s1, NewMetrics t L s = (.ok (.real g), s1) ∧
      NewMetrics t L' s1 = (.ok (.real g), s1) ∧
      alookup (fullName t L) s1.metrics = some g ∧
      (s1.metrics.map Prod.fst).count (fullName t L) = 1 := by
  have hlen' : ¬L.length > maxLabelCount := by omega
  cases hm : alookup (fullName t L) s.metrics with
  | some m =>
    have hcall := NewMetrics_found hlen' hex hm
    obtain ⟨h2, hst⟩ := NewMetrics_second_call hL hL' heq hcall
    refine ⟨m, s, hcall, h2, hst, ?_⟩
    have hmem : fullName t L ∈ s.metrics.map Prod.fst := by
      rw [← alookup_isSome_iff, hm]; rfl
    exact List.count_eq_one_of_mem hs hmem
  | none =>
    have hcall := NewMetrics_new hlen' hex hm
    obtain ⟨h2, hst⟩ := NewMetrics_second_call hL hL' heq hcall
    refine ⟨_, _, hcall, h2, hst, ?_⟩
    have hnot : fullName t L ∉ s.metrics.map Prod.fst :=
      (alookup_eq_none_iff _ _).mp hm
    simp [List.count_append, List.count_eq_zero.mpr hnot]

/-- Witness for C1 at a concrete input. -/
theorem newMetrics_dedup_idempotent_witness :
    ∃ g s1, NewMetrics "t" [("a", "1")] initStore = (.ok (.real g), s1) ∧
      NewMetrics "t" [("a", "1")] s1 = (.ok (.real g), s1) ∧
      alookup (fullName "t" [("a", "1")]) s1.metrics = some g ∧
      (s1.metrics.map Prod.fst).count (fullName "t" [("a", "1")]) = 1 :=
  newMetrics_dedup_idempotent "t" [("a", "1")] [("a", "1")] initStore
    (by decide) (by decide) (by decide) (by decide) (by decide) (by decide)

/-- C2: Identity determinism: two label sets with identical key-to-value
pairs presented in different orders yield the same identity string, and a
GetOrCreate with the second label set performed after one with the first
returns the same Metric-Group instance, leaving the state untouched. -/
theorem identity_determinism (t : String) (L1 L2 : List (String × String))
    (h1 : (L1.map Prod.fst).Nodup) (h2 : (L2.map Prod.fst).Nodup)
    (heq : mapEqual L1 L2 = true) :
    fullName t L1 = fullName t L2 ∧
    ∀ (s s1 : Store) (g : Metrics),
      NewMetrics t L1 s = (.ok (.real g), s1) →
      NewMetrics t L2 s1 = (.ok (.real g), s1) :=
  ⟨fullName_congr t h1 h2 (mapEqual_lookup h1 h2 heq),
   fun _ _ _ hcall => (NewMetrics_second_call h1 h2 heq hcall).1⟩

/-- Witness for C2 at a concrete input: same two labels in swapped order. -/
theorem identity_determinism_witness :
    fullName "t" [("a", "1"), ("b", "2")] = fullName "t" [("b", "2"), ("a", "1")] ∧
    NewMetrics "t" [("b", "2"), ("a", "1")]
        (NewMetrics "t" [("a", "1"), ("b", "2")] initStore).2
      = (.ok (.real { typ := "t", labels := [("a", "1"), ("b", "2")] }),
          (NewMetrics "t" [("a", "1"), ("b", "2")] initStore).2) := by
  have h := identity_determinism "t" [("a", "1"), ("b", "2")] [("b", "2"), ("a", "1")]
    (by decide) (by decide) (by decide)
  exact ⟨h.1, h.2 initStore _ _ rfl⟩

/-- C3 counterexample: on the empty label set `fullName` produces the type
followed by a trailing separator dot, not the type alone as the claim
states. -/
theorem fullName_empty_not_type_alone :
    fullName "t" [] = "t." ∧ fullName "t" [] ≠ "t" :=
  ⟨by decide, by decide⟩

/-- C3 (amended): identity string format — for every nonempty label set the
identity equals the type concatenated with, for each label in sorted key
order, `.<key>.<value>`; for the empty label set it equals the type followed
by a trailing `"."`. -/
theorem fullName_format (t : String) (L : List (String × String)) :
    (L ≠ [] → fullName t L = specIdentity t L) ∧ fullName t [] = t ++ "." := by
  refine ⟨fullName_eq_specIdentity_of_ne_nil t L, ?_⟩
  have h0 : fullName t [] = t ++ "." ++ "" := rfl
  rw [h0, String.append_empty]

/-- Witness for C3's amended format claim at a concrete input. -/
theorem fullName_format_witness :
    ([("k", "v")] : List (String × String)) ≠ [] ∧
    fullName "t" [("k", "v")] = specIdentity "t" [("k", "v")] ∧
    fullName "t" [] = "t" ++ "." :=
  ⟨by decide, (fullName_format "t" [("k", "v")]).1 (by decide),
    (fullName_format "t" [("k", "v")]).2⟩

/-! ### Claim theorems: exclusion, label limit, sticky reject, reset -/

theorem NewMetrics_ok_of_le {t : String} {L : List (String × String)} {s : Store}
    (hlen : ¬L.length > maxLabelCount) :
    ∃ m, (NewMetrics t L s).1 = .ok m := by
  cases hex : isExclusion s L with
  | true => exact ⟨.nil t L, by rw [NewMetrics_excluded s hlen hex]⟩
  | false =>
    cases hm : alookup (fullName t L) s.metrics with
    | some m => exact ⟨.real m, by rw [NewMetrics_found hlen hex hm]⟩
    | none => exact ⟨_, by rw [NewMetrics_new hlen hex hm]⟩

/-- C4: Exclusion path: for a label set of at most 10 entries, if `rejectAll`
is set or some key of the label set is among the excluded keys, `NewMetrics`
returns the no-op Metric-Group variant, leaves the registry state untouched,
and a no-op group never appears in the sequence returned by `GetAll`. -/
theorem exclusion_returns_noop (t : String) (L : List (String × String))
    (s : Store)
    (hlen : L.length ≤ maxLabelCount)
    (hex : s.rejectAll = true ∨ ∃ k ∈ L.map Prod.fst, k ∈ s.exclusionLabels) :
    NewMetrics t L s = (.ok (.nil t L), s) ∧
      ∀ s2 : Store, TypesMetrics.nil t L ∉ GetAll s2 := by
  have hlen' : ¬L.length > maxLabelCount := by omega
  have hexc : isExclusion s L = true := by
    unfold isExclusion
    rcases hex with hall | ⟨k, hk, hkex⟩
    · rw [hall]; rfl
    · rw [Bool.or_eq_true, List.any_eq_true]
      exact Or.inr ⟨k, hkex, (alookup_isSome_iff k L).mpr hk⟩
  refine ⟨NewMetrics_excluded s hlen' hexc, ?_⟩
  intro s2 hmem
  unfold GetAll at hmem
  obtain ⟨p, _, hp⟩ := List.mem_map.mp hmem
  exact absurd hp (by simp)

/-- Witness for C4: excluded key "env" on a store excluding "env". -/
theorem exclusion_returns_noop_witness :
    NewMetrics "http" [("env", "prod")]
        { rejectAll := false, exclusionLabels := ["env"], metrics := [] }
      = (.ok (.nil "http" [("env", "prod")]),
         { rejectAll := false, exclusionLabels := ["env"], metrics := [] }) ∧
    TypesMetrics.nil "http" [("env", "prod")] ∉ GetAll initStore := by
  have h := exclusion_returns_noop "http" [("env", "prod")]
    { rejectAll := false, exclusionLabels := ["env"], metrics := [] }
    (by decide) (Or.inr (by decide))
  exact ⟨h.1, h.2 initStore⟩

/-- C5: Label limit with error atomicity: `NewMetrics` errors exactly when
the label set has more than 10 entries; the error is `errLabelCountExceeded`,
the state is returned unchanged, a 10-entry label set succeeds, and no other
error is possible. -/
theorem label_limit_error (t : String) (L : List (String × String)) (s : Store) :
    ((∃ e, (NewMetrics t L s).1 = .error e) ↔ L.length > maxLabelCount) ∧
    (L.length > maxLabelCount →
      NewMetrics t L s = (.error errLabelCountExceeded, s)) ∧
    (L.length = maxLabelCount → ∃ m, (NewMetrics t L s).1 = .ok m) ∧
    ∀ e, (NewMetrics t L s).1 = .error e → e = errLabelCountExceeded := by
  by_cases hlen : L.length > maxLabelCount
  · have hcall := NewMetrics_limit (t := t) s hlen
    refine ⟨⟨fun _ => hlen, fun _ => ⟨errLabelCountExceeded, by rw [hcall]⟩⟩,
      fun _ => hcall, fun h10 => absurd h10 (by omega), fun e he => ?_⟩
    rw [hcall] at he
    exact (Except.error.injEq .. ▸ he).symm
  · obtain ⟨m, hm⟩ := NewMetrics_ok_of_le (t := t) (L := L) (s := s) hlen
    refine ⟨⟨fun ⟨e, he⟩ => absurd (hm ▸ he) (by simp), fun h => absurd h hlen⟩,
      fun h => absurd h hlen, fun _ => ⟨m, hm⟩, fun e he => absurd (hm ▸ he) (by simp)⟩

/-- Witness for C5: an 11-entry label set fails with the limit error, a
10-entry label set succeeds. -/
theorem label_limit_error_witness :
    ([("a", "1"), ("b", "1"), ("c", "1"), ("d", "1"), ("e", "1"), ("f", "1"),
      ("g", "1"), ("h", "1"), ("i", "1"), ("j", "1"), ("k", "1")].length
        > maxLabelCount) ∧
    NewMetrics "t" [("a", "1"), ("b", "1"), ("c", "1"), ("d", "1"), ("e", "1"),
      ("f", "1"), ("g", "1"), ("h", "1"), ("i", "1"), ("j", "1"), ("k", "1")]
        initStore = (.error errLabelCountExceeded, initStore) ∧
    (∃ m, (NewMetrics "t" [("a", "1"), ("b", "1"), ("c", "1"), ("d", "1"),
      ("e", "1"), ("f", "1"), ("g", "1"), ("h", "1"), ("i", "1"), ("j", "1")]
        initStore).1 = .ok m) := by
  have h11 := label_limit_error "t" [("a", "1"), ("b", "1"), ("c", "1"),
    ("d", "1"), ("e", "1"), ("f", "1"), ("g", "1"), ("h", "1"), ("i", "1"),
    ("j", "1"), ("k", "1")] initStore
  have h10 := label_limit_error "t" [("a", "1"), ("b", "1"), ("c", "1"),
    ("d", "1"), ("e", "1"), ("f", "1"), ("g", "1"), ("h", "1"), ("i", "1"),
    ("j", "1")] initStore
  exact ⟨by decide, h11.2.1 (by decide), h10.2.2.1 (by decide)⟩

theorem applyOp_rejectAll_sticky {s : Store} (h : s.rejectAll = true)
    (op : Op) : (applyOp s op).rejectAll = true := by
  cases op with
  | setMatcher all exclusions =>
    cases all <;> simp [applyOp, SetStatsMatcher, h]
  | newMetrics t L =>
    have hp := (NewMetrics_preserves_policy t L s).1
    simpa [applyOp, hp] using h
  | getAll => exact h

theorem runOps_rejectAll_sticky {s : Store} (h : s.rejectAll = true) :
    ∀ ops : List Op, (runOps s ops).rejectAll = true := by
  intro ops
  induction ops generalizing s with
  | nil => exact h
  | cons op rest ih => exact ih (applyOp_rejectAll_sticky h op)

/-- C6: Sticky reject-all latch: after any `SetStatsMatcher(true, _)`, the
`rejectAll` flag stays true across every subsequent sequence of
`SetStatsMatcher` (including with `all = false`), `NewMetrics` and
enumeration calls, so new metric creations keep returning the no-op
variant, and `ResetAll` clears the flag. -/
theorem rejectAll_sticky (s0 : Store) (exs : List String) (ops : List Op) :
    (runOps (SetStatsMatcher true exs s0) ops).rejectAll = true ∧
    (∀ exs2, (SetStatsMatcher false exs2
      (runOps (SetStatsMatcher true exs s0) ops)).rejectAll = true) ∧
    (∀ t L, ¬L.length > maxLabelCount →
      (NewMetrics t L (runOps (SetStatsMatcher true exs s0) ops)).1
        = .ok (.nil t L)) ∧
    (ResetAll (runOps (SetStatsMatcher true exs s0) ops)).1.rejectAll = false := by
  have hset : (SetStatsMatcher true exs s0).rejectAll = true := rfl
  have hrun := runOps_rejectAll_sticky hset ops
  refine ⟨hrun, fun exs2 => hrun, fun t L hlen => ?_, rfl⟩
  have hexc : isExclusion (runOps (SetStatsMatcher true exs s0) ops) L = true := by
    unfold isExclusion
    rw [hrun]
    rfl
  rw [NewMetrics_excluded _ hlen hexc]

/-- Witness for C6: set reject-all, then try to clear it with a second call;
a later metric creation is still a no-op and `ResetAll` clears the latch. -/
theorem rejectAll_sticky_witness :
    (runOps (SetStatsMatcher true [] initStore) [Op.setMatcher false []]).rejectAll
      = true ∧
    (NewMetrics "t" [("a", "1")]
      (runOps (SetStatsMatcher true [] initStore) [Op.setMatcher false []])).1
        = .ok (.nil "t" [("a", "1")]) ∧
    (ResetAll (runOps (SetStatsMatcher true [] initStore)
      [Op.setMatcher false []])).1.rejectAll = false := by
  have h := rejectAll_sticky initStore [] [Op.setMatcher false []]
  exact ⟨h.1, h.2.2.1 "t" [("a", "1")] (by decide), h.2.2.2⟩

/-- C7: ResetAll postcondition: after `ResetAll`, having first invoked
`UnregisterAll` on every tracked Metric-Group, enumeration yields the empty
sequence, the `rejectAll` flag is false, the excluded-key list is empty, and
every torn-down group's instrument sub-registry is empty — regardless of the
prior state. -/
theorem resetAll_postcondition (s : Store) :
    GetAll (ResetAll s).1 = [] ∧
    (ResetAll s).1.rejectAll = false ∧
    (ResetAll s).1.exclusionLabels = [] ∧
    (ResetAll s).2 = s.metrics.map (fun p => p.2.UnregisterAll) ∧
    ∀ g ∈ (ResetAll s).2, g.registry = [] := by
  refine ⟨rfl, rfl, rfl, rfl, fun g hg => ?_⟩
  obtain ⟨p, _, hp⟩ := List.mem_map.mp hg
  rw [← hp]
  rfl

/-- Witness for C7 on a store with a nonzero policy and one tracked group
holding a counter. -/
theorem resetAll_postcondition_witness :
    GetAll (ResetAll { rejectAll := true
                       exclusionLabels := ["env"]
                       metrics := [("n", { typ := "t"
                                           labels := []
                                           registry := [("c", Instrument.counter 5)] })] }).1
        = [] ∧
    (ResetAll { rejectAll := true
                exclusionLabels := ["env"]
                metrics := [("n", { typ := "t"
                                    labels := []
                                    registry := [("c", Instrument.counter 5)] })] }).1.rejectAll
        = false ∧
    (ResetAll { rejectAll := true
                exclusionLabels := ["env"]
                metrics := [("n", { typ := "t"
                                    labels := []
                                    registry := [("c", Instrument.counter 5)] })] }).1.exclusionLabels
        = [] ∧
    ∀ g ∈ (ResetAll { rejectAll := true
                      exclusionLabels := ["env"]
                      metrics := [("n", { typ := "t"
                                          labels := []
                                          registry := [("c", Instrument.counter 5)] })] }).2,
      g.registry = [] := by
  have h := resetAll_postcondition { rejectAll := true
                                     exclusionLabels := ["env"]
                                     metrics := [("n", { typ := "t"
                                                         labels := []
                                                         registry := [("c", Instrument.counter 5)] })] }
  exact ⟨h.1, h.2.1, h.2.2.1, h.2.2.2.2⟩

/-! ### Claim theorems: instruments -/

theorem getOrRegister_idempotent (reg : List (String × Instrument)) (n : String)
    (ctor : Unit → Instrument) :
    getOrRegister (getOrRegister reg n ctor).2 n ctor
      = ((getOrRegister reg n ctor).1, (getOrRegister reg n ctor).2) := by
  unfold getOrRegister
  cases hm : alookup n reg with
  | some i => simp [hm]
  | none =>
    have hnew : alookup n (reg ++ [(n, ctor ())]) = some (ctor ()) := by
      rw [alookup_append, hm]
      simp [alookup]
    simp [hm, hnew]

theorem counter_twice (g : Metrics) (n : String) :
    (g.Counter n).2.Counter n = ((g.Counter n).1, (g.Counter n).2) := by
  unfold Metrics.Counter
  dsimp only
  rw [getOrRegister_idempotent]

theorem gauge_twice (g : Metrics) (n : String) :
    (g.Gauge n).2.Gauge n = ((g.Gauge n).1, (g.Gauge n).2) := by
  unfold Metrics.Gauge
  dsimp only
  rw [getOrRegister_idempotent]

theorem histogram_twice (g : Metrics) (n : String) :
    (g.Histogram n).2.Histogram n = ((g.Histogram n).1, (g.Histogram n).2) := by
  unfold Metrics.Histogram
  dsimp only
  rw [getOrRegister_idempotent]

/-- C8: Instrument creation idempotence: for every Metric-Group and name,
requesting the same name twice returns the identical instrument both times —
for counters, gauges and histograms alike — and the second call leaves the
group's sub-registry exactly as the first call left it, preserving
accumulated state and never creating a duplicate. -/
theorem instrument_idempotent (g : Metrics) (n : String) :
    (g.Counter n).2.Counter n = ((g.Counter n).1, (g.Counter n).2) ∧
    (g.Gauge n).2.Gauge n = ((g.Gauge n).1, (g.Gauge n).2) ∧
    (g.Histogram n).2.Histogram n = ((g.Histogram n).1, (g.Histogram n).2) :=
  ⟨counter_twice g n, gauge_twice g n, histogram_twice g n⟩

theorem UniformSample_update_size (s : UniformSample) (v : Int) (r : Nat)
    (h : s.values.length ≤ s.reservoirSize) :
    (s.update v r).values.length ≤ s.reservoirSize ∧
    (s.update v r).reservoirSize = s.reservoirSize := by
  unfold UniformSample.update
  by_cases hlt : s.values.length < s.reservoirSize
  · simp [hlt]
    omega
  · by_cases hr : r < s.reservoirSize
    · simp [hlt, hr]
      exact h
    · simp [hlt, hr]
      exact h

theorem UniformSample_updates_size (obs : List (Int × Nat)) :
    ∀ s : UniformSample, s.values.length ≤ s.reservoirSize →
      (s.updates obs).values.length ≤ (s.updates obs).reservoirSize ∧
      (s.updates obs).reservoirSize = s.reservoirSize := by
  induction obs with
  | nil => exact fun s h => ⟨h, rfl⟩
  | cons o rest ih =>
    intro s h
    have hstep := UniformSample_update_size s o.1 o.2 h
    have hrec := ih (s.update o.1 o.2) (hstep.2 ▸ hstep.1)
    exact ⟨hrec.1, hrec.2.trans hstep.2⟩

/-- C9: Histogram reservoir bound: a Histogram freshly created through a
Metric-Group's `Histogram(name)` is backed by a uniform random reservoir
sample of fixed capacity 100, and for every observation sequence the number
of retained samples never exceeds 100. -/
theorem histogram_reservoir_bound (g : Metrics) (n : String)
    (hnew : alookup n g.registry = none) :
    (g.Histogram n).1 = .histogram (newUniformSample 100) ∧
    (newUniformSample 100).reservoirSize = 100 ∧
    ∀ obs : List (Int × Nat),
      ((newUniformSample 100).updates obs).values.length ≤ 100 := by
  refine ⟨?_, rfl, fun obs => ?_⟩
  · unfold Metrics.Histogram getOrRegister
    simp [hnew]
  · have h := UniformSample_updates_size obs (newUniformSample 100)
      (by simp [newUniformSample])
    rw [h.2] at h
    exact h.1

/-- Witness for C9: a fresh group's histogram, and 150 observations on a
capacity-100 reservoir. -/
theorem histogram_reservoir_bound_witness :
    ((⟨"t", [], none, none, []⟩ : Metrics).Histogram "h").1
      = .histogram (newUniformSample 100) ∧
    ((newUniformSample 100).updates
      (List.replicate 150 ((5 : Int), 0))).values.length ≤ 100 := by
  have h := histogram_reservoir_bound ⟨"t", [], none, none, []⟩ "h" rfl
  exact ⟨h.1, h.2.2 (List.replicate 150 ((5 : Int), 0))⟩

/-- C10: Identity collisions: `fullName` is not injective because keys,
values and the type are joined with the unescaped separator dot — the label
maps {"a": "b.c"} and {"a.b": "c"} differ as mappings yet give the same
identity for type "t", so the second `NewMetrics` call returns the
Metric-Group stored by the first instead of a distinct one. -/
theorem fullName_collision :
    fullName "t" [("a", "b.c")] = fullName "t" [("a.b", "c")] ∧
    mapEqual [("a", "b.c")] [("a.b", "c")] = false ∧
    (NewMetrics "t" [("a.b", "c")]
        (NewMetrics "t" [("a", "b.c")] initStore).2).1
      = (NewMetrics "t" [("a", "b.c")] initStore).1 ∧
    (NewMetrics "t" [("a.b", "c")]
        (NewMetrics "t" [("a", "b.c")] initStore).2).2
      = (NewMetrics "t" [("a", "b.c")] initStore).2 :=
  ⟨by decide, by decide, rfl, by decide⟩
